import Mathlib

/-!
Verification development for the rust-gamedig repository: a shallow
embedding of the Quake-style UDP status-query engine and its CLI glue
code, together with theorems settling the specification claims.

Sources embedded directly:
  - src/src/games/quake2.rs        (per-game query entry point)
  - src/crates/cli/src/main.rs     (CLI glue: resolution, output)
  - src/crates/cli/src/error.rs    (CLI error type)

The core protocol engine (packet codec, transport session, response
decoder) lives in the gamedig library crate, which is not part of the
given sources; those parts are modelled from the specification, as
marked in their doc comments. External library calls (std IP parsing,
DNS socket-address resolution, serde serialization) are modelled as
oracle function parameters, since their code is outside the repository.
-/

namespace Gamedig

/-- Classified errors of the protocol engine, following the error
taxonomy of the specification (Timeout, Protocol, Decode, Socket). -/
inductive GDError where
  | timeout
  | protocol
  | decode
  | socketFailure
  deriving DecidableEq, Repr

/-- Result type of engine operations: a decoded value or a classified error. -/
abbrev GDResult (α : Type) : Type := Except GDError α

/-- Opaque model of a concrete IP address (the engine never inspects its
structure; the CLI obtains it from parsing or DNS resolution). -/
structure IpAddr where
  text : String
  deriving DecidableEq, Repr

/-- Modelled from the spec: Timeout Settings hold per-operation durations
for connect/write and read; defaults apply when unset.  (The concrete
struct lives in the gamedig library crate, outside the given sources.) -/
structure TimeoutSettings where
  connect : Option Nat
  read : Option Nat
  deriving DecidableEq, Repr

/-- Modelled from the spec: Extra Request Settings are optional
protocol-modulating inputs — a hostname string for virtual-hosting
servers, and a flag selecting a protocol variant.  (The concrete struct
lives in the gamedig library crate, outside the given sources.) -/
structure ExtraRequestSettings where
  hostname : Option String
  protocol_variant : Option Bool
  deriving DecidableEq, Repr

/-- Default Extra Request Settings: every optional field unset. -/
def ExtraRequestSettings.default : ExtraRequestSettings :=
  { hostname := none, protocol_variant := none }

/-- Builder used in main.rs: ExtraRequestSettings::default().set_hostname(h). -/
def ExtraRequestSettings.set_hostname (s : ExtraRequestSettings) (h : String) :
    ExtraRequestSettings :=
  { s with hostname := some h }

/-! ### Per-game entry point (src/src/games/quake2.rs) -/

/-- Argument tuple that quake2::query passes to the protocol-level query
quake::two::query: the address, the resolved port, and the third
argument (timeout settings), which quake2.rs hardcodes to None. -/
structure QuakeTwoCall where
  address : IpAddr
  port : Nat
  timeout_settings : Option TimeoutSettings
  deriving DecidableEq, Repr

/-- Embedding of quake2.rs: the arguments the entry point hands to the
protocol query.  The source reads
`quake::two::query(address, port.unwrap_or(27910), None)`. -/
def quake2_call (address : IpAddr) (port : Option Nat) : QuakeTwoCall :=
  { address := address, port := port.getD 27910, timeout_settings := none }

/-- Embedding of `pub fn query(address, port)` from quake2.rs.  The
protocol-level query quake::two::query is not among the given sources,
so it is abstracted as the function parameter `engine`; quake2.rs simply
applies it to the reified argument tuple. -/
def quake2_query {ρ : Type} (engine : QuakeTwoCall → GDResult ρ)
    (address : IpAddr) (port : Option Nat) : GDResult ρ :=
  engine (quake2_call address port)

/-! ### CLI error type (src/crates/cli/src/error.rs) -/

/-- Embedding of the CLI error enum from error.rs.  Foreign error
payloads are modelled as strings/engine errors. -/
inductive CliError where
  | ioFailure (msg : String)
  | clap (msg : String)
  | gamedig (e : GDError)
  | serde (msg : String)
  | xml (msg : String)
  | unknownGame (id : String)
  | invalidHostname (host : String)
  deriving DecidableEq, Repr

/-! ### CLI address resolution (src/crates/cli/src/main.rs) -/

/-- Model of std::net::SocketAddr: an IP address paired with a port. -/
structure SocketAddr where
  ip : IpAddr
  port : Nat
  deriving DecidableEq, Repr

/-- Embedding of set_hostname_if_missing from main.rs.  The Rust function
mutates the `Option<ExtraRequestSettings>` in place; the embedding
returns the updated value. -/
def set_hostname_if_missing (host : String) :
    Option ExtraRequestSettings → Option ExtraRequestSettings
  | some eo =>
    if eo.hostname.isNone then some { eo with hostname := some host }
    else some eo
  | none => some (ExtraRequestSettings.default.set_hostname host)

/-- Embedding of resolve_domain from main.rs.  DNS resolution
(`ToSocketAddrs` on the string `"<domain>:0"`) is external library code,
modelled by the oracle `to_socket_addrs`: `none` models a resolution
error, `some l` the list of resolved socket addresses.  Both a failed
resolution and an empty address list yield InvalidHostname(domain). -/
def resolve_domain (to_socket_addrs : String → Option (List SocketAddr))
    (domain : String) : Except CliError IpAddr :=
  match to_socket_addrs (domain ++ ":0") with
  | none => .error (.invalidHostname domain)
  | some [] => .error (.invalidHostname domain)
  | some (a :: _) => .ok a.ip

/-- Embedding of resolve_ip_or_domain from main.rs.  Literal IP parsing
(`host.parse()`) is external std code, modelled by the oracle `parse`.
The Rust function mutates the extra options through a `&mut` reference;
the embedding returns the resolution result paired with the updated
extra options. -/
def resolve_ip_or_domain (parse : String → Option IpAddr)
    (to_socket_addrs : String → Option (List SocketAddr))
    (host : String) (extra_options : Option ExtraRequestSettings) :
    Except CliError IpAddr × Option ExtraRequestSettings :=
  match parse host with
  | some parsed_ip => (.ok parsed_ip, extra_options)
  | none =>
    (resolve_domain to_socket_addrs host, set_hostname_if_missing host extra_options)

/-! ### CLI output (src/crates/cli/src/main.rs) -/

/-- Embedding of the OutputMode enum from main.rs. -/
inductive OutputMode where
  | generic
  | protocolSpecific
  deriving DecidableEq, Repr

/-- Model of a `&dyn CommonResponse` value: the pair of views a query
result offers.  `as_json` is the Common Response projection (a pure
field renaming/subset, per the spec) and `as_original` the
protocol-specific response; both are data already in hand, so the output
step cannot re-query the network.  The view types are abstract. -/
structure CommonResponse (γ ω : Type) where
  as_json : γ
  as_original : ω

/-- Print action selected by output_result: which value is printed and in
which format (JSON or debug formatting). -/
inductive OutputAction (γ ω : Type) where
  | jsonCommon (v : γ)
  | jsonOriginal (v : ω)
  | debugCommon (v : γ)
  | debugOriginal (v : ω)

/-- Embedding of output_result from main.rs (json feature enabled): the
four match arms on (output_mode, json flag). -/
def output_result {γ ω : Type} (json : Bool) (output_mode : OutputMode)
    (result : CommonResponse γ ω) : OutputAction γ ω :=
  match output_mode, json with
  | .generic, true => .jsonCommon result.as_json
  | .protocolSpecific, true => .jsonOriginal result.as_original
  | .generic, false => .debugCommon result.as_json
  | .protocolSpecific, false => .debugOriginal result.as_original

/-- Payload of a print action, forgetting the format: left is the Common
Response projection, right the protocol-specific original. -/
def printedPayload {γ ω : Type} : OutputAction γ ω → γ ⊕ ω
  | .jsonCommon v => .inl v
  | .debugCommon v => .inl v
  | .jsonOriginal v => .inr v
  | .debugOriginal v => .inr v

/-- Outcome of output_result_json: either the value was written, or the
process panicked (the `.unwrap()` on a failed serialization). -/
inductive JsonWriteOutcome where
  | written
  | panicked (msg : String)
  deriving DecidableEq, Repr

/-- Embedding of output_result_json from main.rs:
`serde_json::to_writer_pretty(stdout, &result).unwrap()`.  The serde
serializer is external library code, modelled by the oracle
`to_writer_pretty`; `.unwrap()` on its error value is a panic. -/
def output_result_json {ρ : Type} (to_writer_pretty : ρ → Except String Unit)
    (result : ρ) : JsonWriteOutcome :=
  match to_writer_pretty result with
  | .ok _ => .written
  | .error e => .panicked e

/-- Outcome of running the CLI output step: a normal return carrying the
CLI result, or a panic. -/
inductive RunOutcome where
  | finished (r : Except CliError Unit)
  | panicked (msg : String)
  deriving Repr

/-- Running one print action: JSON actions go through output_result_json
(and may panic), debug actions print with the Debug formatter and always
succeed. -/
def run_output_action {γ ω : Type} (serCommon : γ → Except String Unit)
    (serOriginal : ω → Except String Unit) : OutputAction γ ω → RunOutcome
  | .jsonCommon v =>
    match output_result_json serCommon v with
    | .written => .finished (.ok ())
    | .panicked e => .panicked e
  | .jsonOriginal v =>
    match output_result_json serOriginal v with
    | .written => .finished (.ok ())
    | .panicked e => .panicked e
  | .debugCommon _ => .finished (.ok ())
  | .debugOriginal _ => .finished (.ok ())

/-- Output step of main (main.rs line 185): output_result on the query
result already in hand, then the normal `Ok(())` return unless the JSON
serializer panicked. -/
def main_output_step {γ ω : Type} (json : Bool) (output_mode : OutputMode)
    (serCommon : γ → Except String Unit) (serOriginal : ω → Except String Unit)
    (result : CommonResponse γ ω) : RunOutcome :=
  run_output_action serCommon serOriginal (output_result json output_mode result)

/-! ### Packet codec (modelled from the spec; the codec lives in the
gamedig library crate, outside the given sources) -/

/-- Modelled from the spec: the protocol's 4-byte out-of-band marker,
four 0xFF bytes. -/
def marker : List Nat := [255, 255, 255, 255]

/-- ASCII/byte view of a string. -/
def strBytes (s : String) : List Nat := s.toList.map Char.toNat

/-- String view of a byte list. -/
def bytesStr (l : List Nat) : String := String.mk (l.map Char.ofNat)

/-- Modelled from the spec: `encode(command, challenge?)` frames an
outgoing packet as 4-byte marker, ASCII command string, optional
challenge token, terminating newline. -/
def encode (command : String) (challenge : Option String) : List Nat :=
  marker ++ strBytes command ++
    (match challenge with
     | some c => 32 :: strBytes c
     | none => []) ++ [10]

/-- A byte that can belong to a command token: neither the newline
terminator nor a space separator. -/
def isTokenByte (b : Nat) : Bool := b ≠ 10 && b ≠ 32

/-- Command-token bytes of a framed packet: the bytes after the 4-byte
marker up to the first newline/space. -/
def tokenBytes (bytes : List Nat) : List Nat :=
  (bytes.drop 4).takeWhile isTokenByte

/-- Command tokens the codec recognizes (request and reply commands of
the protocol family named by the spec). -/
def recognizedTokens : List String :=
  ["status", "getstatus", "getinfo", "getchallenge",
   "statusResponse", "infoResponse", "challengeResponse", "print"]

/-- Modelled from the spec: `validate_and_strip(bytes)` requires the
4-byte marker, strips it and the leading command token, and returns the
token together with the remaining payload bytes.  A packet lacking the
marker, or bearing an unrecognized command token, is a protocol error. -/
def validate_and_strip (bytes : List Nat) : GDResult (String × List Nat) :=
  if marker.isPrefixOf bytes then
    let tok := tokenBytes bytes
    if bytesStr tok ∈ recognizedTokens then
      .ok (bytesStr tok, ((bytes.drop 4).drop tok.length).drop 1)
    else .error .protocol
  else .error .protocol

/-! ### Transport session (modelled from the spec; the session lives in
the gamedig library crate, outside the given sources) -/

/-- Modelled from the spec: the protocol-default retry budget, 3 send
attempts total. -/
def default_retry_count : Nat := 3

/-- Modelled from the spec: one exchange of the transport session.
`recv i` is the datagram the socket delivers during attempt `i`'s read
window (`none` models the per-attempt read timeout elapsing with no
reply).  Each attempt sends the request once, then reads: a timeout
moves on to the next attempt; a received reply is validated — a
conformant one is returned, a non-conformant one is a protocol error and
is not retried.  When the attempt budget is exhausted the session
surfaces a timeout error.  The result is paired with the number of send
attempts performed. -/
def send_and_receive (recv : Nat → Option (List Nat)) :
    Nat → Nat → GDResult (String × List Nat) × Nat
  | 0, sent => (.error .timeout, sent)
  | attempts + 1, sent =>
    match recv sent with
    | none => send_and_receive recv attempts (sent + 1)
    | some bytes =>
      match validate_and_strip bytes with
      | .ok payload => (.ok payload, sent + 1)
      | .error _ => (.error .protocol, sent + 1)

/-! ### Response decoder (modelled from the spec; the decoder lives in
the gamedig library crate, outside the given sources) -/

/-- Split a character list at every occurrence of the delimiter. -/
def splitOnChar (delim : Char) : List Char → List (List Char)
  | [] => [[]]
  | c :: rest =>
    let r := splitOnChar delim rest
    if c = delim then [] :: r
    else
      match r with
      | [] => [[c]]
      | h :: t => (c :: h) :: t

/-- Lines of the payload text block, split at newlines. -/
def splitLines (payload : String) : List String :=
  (splitOnChar '\n' payload.toList).map String.mk

/-- Pair up an alternating key/value list; a dangling key without a
value is dropped. -/
def pairUp : List String → List (String × String)
  | k :: v :: rest => (k, v) :: pairUp rest
  | _ => []

/-- Modelled from the spec: parse the first payload line, a key/value
info string using a backslash-key-backslash-value repeating delimiter
scheme. -/
def parseInfo (line : String) : List (String × String) :=
  pairUp (((splitOnChar '\\' line.toList).map String.mk).drop 1)

/-- Tokenizer state machine for player lines: `inQuote` tracks whether
the scan is inside a double-quoted region, `cur` accumulates the current
field in reverse.  Whitespace outside quotes separates fields; quote
characters toggle the state and are not part of the field. -/
def tokenizeGo : Bool → List Char → List Char → List (List Char)
  | _, cur, [] => if cur.isEmpty then [] else [cur.reverse]
  | inQuote, cur, c :: rest =>
    if c = '"' then tokenizeGo (!inQuote) cur rest
    else if !inQuote && (c = ' ' || c = '\t') then
      if cur.isEmpty then tokenizeGo false [] rest
      else cur.reverse :: tokenizeGo false [] rest
    else tokenizeGo inQuote (c :: cur) rest

/-- Modelled from the spec: whitespace/quote-delimited fields of one
player line. -/
def tokenize (line : String) : List String :=
  (tokenizeGo false [] line.toList).map String.mk

/-- Value of a decimal digit character. -/
def digitVal (c : Char) : Option Nat :=
  if '0' ≤ c ∧ c ≤ '9' then some (c.toNat - 48) else none

/-- Parse a non-empty all-digit character list as a natural number. -/
def parseNatChars (l : List Char) : Option Nat :=
  if l.isEmpty then none
  else
    l.foldl
      (fun acc c =>
        match acc, digitVal c with
        | some n, some d => some (n * 10 + d)
        | _, _ => none)
      (some 0)

/-- Parse an optionally negated decimal integer. -/
def parseIntChars : List Char → Option Int
  | '-' :: rest => (parseNatChars rest).map (fun n => -(n : Int))
  | l => (parseNatChars l).map (fun n => (n : Int))

/-- One player record: score, ping and name at minimum, plus any
protocol-specific extra fields. -/
structure Player where
  score : Int
  ping : Int
  name : String
  extras : List String
  deriving DecidableEq, Repr

/-- Modelled from the spec: a player line is whitespace/quote-delimited
fields — score, ping, name at minimum; a wrong field count or a
non-numeric score/ping is a decode error. -/
def parse_player_line (line : String) : GDResult Player :=
  match tokenize line with
  | score :: ping :: nameField :: extras =>
    match parseIntChars score.toList, parseIntChars ping.toList with
    | some s, some p => .ok { score := s, ping := p, name := nameField, extras := extras }
    | _, _ => .error .decode
  | _ => .error .decode

/-- Protocol Response: server metadata key/value pairs plus the ordered
player records. -/
structure Response where
  info : List (String × String)
  players : List Player
  deriving DecidableEq, Repr

/-- Decode every player line, failing on the first malformed line. -/
def decodePlayers : List String → GDResult (List Player)
  | [] => .ok []
  | l :: rest =>
    match parse_player_line l with
    | .error e => .error e
    | .ok p =>
      match decodePlayers rest with
      | .error e => .error e
      | .ok ps => .ok (p :: ps)

/-- Player count declared in the info-string metadata, when present and
numeric. -/
def declared_player_count (info : List (String × String)) : Option Nat :=
  (info.lookup "players").bind (fun v => parseNatChars v.toList)

/-- A line containing only whitespace (such as the empty line after a
terminating newline). -/
def isBlank (line : String) : Bool :=
  line.toList.all (fun c => c = ' ' || c = '\t' || c = '\r')

/-- Non-blank player lines of a payload: every line after the info line
that is not whitespace-only. -/
def playerLines (payload : String) : List String :=
  ((splitLines payload).drop 1).filter (fun l => !(isBlank l))

/-- Modelled from the spec: `decode(payload)` parses the first line as
the key/value info string and every following non-blank line as a player
record; any malformed player line is a decode error, and a declared
player count that disagrees with the parsed player list is a decode-time
consistency failure. -/
def decode (payload : String) : GDResult Response :=
  match splitLines payload with
  | [] => .error .decode
  | infoLine :: _ =>
    let info := parseInfo infoLine
    match decodePlayers (playerLines payload) with
    | .error e => .error e
    | .ok players =>
      match declared_player_count info with
      | some n =>
        if players.length = n then .ok { info := info, players := players }
        else .error .decode
      | none => .ok { info := info, players := players }

/-- Info mapping of a payload: the parsed key/value info string of its
first line. -/
def infoOf (payload : String) : List (String × String) :=
  parseInfo ((splitLines payload).headD "")

/-! ### Fragment reassembly (modelled from the spec; outside the given
sources) -/

/-- One reply fragment: its sequence index and its payload bytes. -/
structure Fragment where
  index : Nat
  data : List Nat
  deriving DecidableEq, Repr

/-- Sequence order on fragments. -/
def byIndex (a b : Fragment) : Prop := a.index ≤ b.index

instance : DecidableRel byIndex := fun a b => Nat.decLe a.index b.index

instance : IsTotal Fragment byIndex := ⟨fun a b => Nat.le_total a.index b.index⟩

instance : IsTrans Fragment byIndex := ⟨fun _ _ _ h h' => Nat.le_trans h h'⟩

/-- Strict sequence order on fragments, used to show that sorting
fragments with pairwise-distinct indices has a unique result. -/
def byIndexLt (a b : Fragment) : Prop := a.index < b.index

instance : IsAntisymm Fragment byIndexLt :=
  ⟨fun _ _ h h' => absurd h' (Nat.lt_asymm h)⟩

/-- Modelled from the spec: reassembly orders the received fragments by
their sequence index and concatenates their payloads. -/
def reassemble (frags : List Fragment) : List Nat :=
  ((frags.insertionSort byIndex).map Fragment.data).flatten

/-! ### Helper lemmas -/

/-- Closed form of set_hostname_if_missing: the hostname becomes the old
hostname when present and the given host otherwise; no other field
changes and the options always become present. -/
theorem set_hostname_if_missing_eq (host : String) (extra : Option ExtraRequestSettings) :
    set_hostname_if_missing host extra =
      some (match extra with
        | none => { hostname := some host, protocol_variant := none }
        | some eo => { eo with hostname := some (eo.hostname.getD host) }) := by
  cases extra with
  | none => rfl
  | some eo =>
    obtain ⟨hn, pv⟩ := eo
    cases hn <;>
      simp [set_hostname_if_missing, ExtraRequestSettings.default,
        ExtraRequestSettings.set_hostname]

/-! ### Claim theorems -/

/-- Claim C1, counterexample: the Quake 2 entry point does not forward
any caller timeout settings to the protocol query — the third argument
of the protocol call is hardcoded to None, so at the concrete input
below it is not a caller-supplied value such as 5000 ms timeouts. -/
theorem c1_counterexample :
    (quake2_call { text := "192.0.2.1" } (some 26000)).timeout_settings = none ∧
    (quake2_call { text := "192.0.2.1" } (some 26000)).timeout_settings ≠
      some { connect := some 5000, read := some 5000 } := by
  exact ⟨rfl, by decide⟩

/-- Claim C1, amended: the per-game Quake 2 entry point takes an address
and an optional port only; it invokes the protocol query on the address,
on port 27910 when the port argument is None and on p when it is
Some(p), and always passes None — not caller timeout settings — as the
timeout-settings argument. -/
theorem c1_entry_point_port_defaulting {ρ : Type}
    (engine : QuakeTwoCall → GDResult ρ) (address : IpAddr)
    (port : Option Nat) (p : Nat) :
    quake2_query engine address port = engine (quake2_call address port) ∧
    (quake2_call address none).port = 27910 ∧
    (quake2_call address (some p)).port = p ∧
    (quake2_call address port).address = address ∧
    (quake2_call address port).timeout_settings = none :=
  ⟨rfl, rfl, rfl, rfl, rfl⟩

/-- Claim C2: the only write the CLI glue performs on the extra request
settings is hostname injection — a literal-IP host leaves the settings
entirely unchanged, a non-IP host sets exactly the hostname field and
only when it was unset, and an already-set hostname is never
overwritten. -/
theorem c2_extra_settings_hostname_injection
    (parse : String → Option IpAddr) (dns : String → Option (List SocketAddr))
    (host : String) (extra : Option ExtraRequestSettings) :
    ((parse host).isSome →
      (resolve_ip_or_domain parse dns host extra).2 = extra) ∧
    (parse host = none →
      (resolve_ip_or_domain parse dns host extra).2 =
        some (match extra with
          | none => { hostname := some host, protocol_variant := none }
          | some eo => { eo with hostname := some (eo.hostname.getD host) })) ∧
    (∀ eo h0, extra = some eo → eo.hostname = some h0 →
      (resolve_ip_or_domain parse dns host extra).2 = extra) := by
  refine ⟨fun hsome => ?_, fun hnone => ?_, fun eo h0 he hh => ?_⟩
  · obtain ⟨ip, hp⟩ := Option.isSome_iff_exists.mp hsome
    simp [resolve_ip_or_domain, hp]
  · simp [resolve_ip_or_domain, hnone, set_hostname_if_missing_eq]
  · subst he
    cases hp : parse host with
    | some ip => simp [resolve_ip_or_domain, hp]
    | none =>
      obtain ⟨hn, pv⟩ := eo
      simp only [ExtraRequestSettings.hostname] at hh
      subst hh
      simp [resolve_ip_or_domain, hp, set_hostname_if_missing_eq]

/-- Claim C2 witness: concrete instances of the three clauses. -/
theorem c2_witness :
    (resolve_ip_or_domain (fun _ => some { text := "10.0.0.1" }) (fun _ => none)
        "10.0.0.1" (some { hostname := none, protocol_variant := some true })).2 =
      some { hostname := none, protocol_variant := some true } ∧
    (resolve_ip_or_domain (fun _ => none) (fun _ => none)
        "play.example.org" (some { hostname := none, protocol_variant := some true })).2 =
      some { hostname := some "play.example.org", protocol_variant := some true } ∧
    (resolve_ip_or_domain (fun _ => none) (fun _ => none)
        "play.example.org" (some { hostname := some "kept.example.org", protocol_variant := none })).2 =
      some { hostname := some "kept.example.org", protocol_variant := none } := by
  refine ⟨?_, ?_, ?_⟩
  · exact (c2_extra_settings_hostname_injection (fun _ => some { text := "10.0.0.1" })
      (fun _ => none) "10.0.0.1" _).1 (by decide)
  · exact (c2_extra_settings_hostname_injection (fun _ => none)
      (fun _ => none) "play.example.org" _).2.1 rfl
  · exact (c2_extra_settings_hostname_injection (fun _ => none)
      (fun _ => none) "play.example.org" _).2.2
      { hostname := some "kept.example.org", protocol_variant := none }
      "kept.example.org" rfl rfl

/-- Claim C3: the output step prints the Common Response projection
(as_json) exactly when the output mode is Generic and the original
protocol-specific response (as_original) exactly when it is
ProtocolSpecific, for either value of the JSON flag; the printed value
is a pure projection of the result already in hand, so the output step
performs no further query. -/
theorem c3_output_mode_selects_view {γ ω : Type} (json : Bool)
    (output_mode : OutputMode) (result : CommonResponse γ ω) :
    printedPayload (output_result json output_mode result) =
      (match output_mode with
       | .generic => .inl result.as_json
       | .protocolSpecific => .inr result.as_original) := by
  cases output_mode <;> cases json <;> rfl

/-- Claim C9: a host string that parses as a literal IP resolves to
exactly the parsed address, independently of the DNS oracle (no DNS
lookup); a non-parsing host resolves to the IP of the first socket
address that DNS resolution of "host:0" yields, and yields
InvalidHostname carrying the host string exactly when resolution fails
or yields no addresses. -/
theorem c9_resolution_behaviour
    (parse : String → Option IpAddr) (dns dns' : String → Option (List SocketAddr))
    (host : String) (extra : Option ExtraRequestSettings) :
    (∀ ip, parse host = some ip →
      (resolve_ip_or_domain parse dns host extra).1 = .ok ip) ∧
    ((parse host).isSome →
      resolve_ip_or_domain parse dns host extra =
        resolve_ip_or_domain parse dns' host extra) ∧
    (parse host = none →
      (∀ a rest, dns (host ++ ":0") = some (a :: rest) →
        (resolve_ip_or_domain parse dns host extra).1 = .ok a.ip) ∧
      ((resolve_ip_or_domain parse dns host extra).1 =
          .error (.invalidHostname host) ↔
        dns (host ++ ":0") = none ∨ dns (host ++ ":0") = some [])) := by
  refine ⟨fun ip hp => ?_, fun hsome => ?_, fun hnone => ⟨fun a rest hd => ?_, ?_⟩⟩
  · simp [resolve_ip_or_domain, hp]
  · obtain ⟨ip, hp⟩ := Option.isSome_iff_exists.mp hsome
    simp [resolve_ip_or_domain, hp]
  · simp [resolve_ip_or_domain, hnone, resolve_domain, hd]
  · cases hd : dns (host ++ ":0") with
    | none => simp [resolve_ip_or_domain, hnone, resolve_domain, hd]
    | some l =>
      cases l with
      | nil => simp [resolve_ip_or_domain, hnone, resolve_domain, hd]
      | cons a rest => simp [resolve_ip_or_domain, hnone, resolve_domain, hd]

/-- Claim C9 witness: concrete instances — a literal IP host, a host
resolved by DNS, and a host whose resolution yields no addresses. -/
theorem c9_witness :
    (resolve_ip_or_domain (fun _ => some { text := "10.1.2.3" }) (fun _ => none)
        "10.1.2.3" none).1 = .ok { text := "10.1.2.3" } ∧
    (resolve_ip_or_domain (fun _ => none)
        (fun _ => some [{ ip := { text := "203.0.113.9" }, port := 0 }])
        "play.example.org" none).1 = .ok { text := "203.0.113.9" } ∧
    (resolve_ip_or_domain (fun _ => none) (fun _ => some [])
        "play.example.org" none).1 = .error (.invalidHostname "play.example.org") := by
  refine ⟨?_, ?_, ?_⟩
  · exact (c9_resolution_behaviour (fun _ => some { text := "10.1.2.3" }) (fun _ => none)
      (fun _ => none) "10.1.2.3" none).1 _ rfl
  · exact ((c9_resolution_behaviour (fun _ => none)
      (fun _ => some [{ ip := { text := "203.0.113.9" }, port := 0 }])
      (fun _ => none) "play.example.org" none).2.2 rfl).1 _ [] rfl
  · exact ((c9_resolution_behaviour (fun _ => none) (fun _ => some [])
      (fun _ => none) "play.example.org" none).2.2 rfl).2.mpr (Or.inr rfl)

/-- Claim C10: when JSON output is selected and serialization of the
selected view fails, the output step panics with the serializer's error
(the unwrap in output_result_json) instead of returning an error, and
the output step never finishes with the Serde variant of the CLI error
type. -/
theorem c10_json_failure_panics {γ ω : Type}
    (serCommon : γ → Except String Unit) (serOriginal : ω → Except String Unit)
    (result : CommonResponse γ ω) (e : String) :
    (serCommon result.as_json = .error e →
      main_output_step true .generic serCommon serOriginal result = .panicked e) ∧
    (serOriginal result.as_original = .error e →
      main_output_step true .protocolSpecific serCommon serOriginal result = .panicked e) ∧
    (∀ (json : Bool) (output_mode : OutputMode) (m : String),
      main_output_step json output_mode serCommon serOriginal result ≠
        .finished (.error (.serde m))) := by
  refine ⟨fun hc => ?_, fun ho => ?_, fun json output_mode m => ?_⟩
  · simp [main_output_step, run_output_action, output_result, output_result_json, hc]
  · simp [main_output_step, run_output_action, output_result, output_result_json, ho]
  · cases output_mode <;> cases json <;>
      simp [main_output_step, run_output_action, output_result, output_result_json] <;>
      split <;> simp_all

/-- Claim C10 witness: a concrete failing serializer makes the JSON
output step panic with the serializer's message. -/
theorem c10_witness :
    main_output_step true .generic (fun (_ : Unit) => .error "serde failure")
      (fun (_ : Unit) => .ok ()) { as_json := (), as_original := () } =
      .panicked "serde failure" :=
  (c10_json_failure_panics (fun _ => .error "serde failure") (fun _ => .ok ())
    { as_json := (), as_original := () } "serde failure").1 rfl

/-- A session whose socket never delivers a reply performs one send per
budgeted attempt and surfaces a timeout. -/
theorem send_and_receive_all_timeouts (recv : Nat → Option (List Nat))
    (h : ∀ i, recv i = none) :
    ∀ attempts sent,
      send_and_receive recv attempts sent = (.error .timeout, sent + attempts) := by
  intro attempts
  induction attempts with
  | zero => intro sent; simp [send_and_receive]
  | succ n ih =>
    intro sent
    simp only [send_and_receive, h sent, ih (sent + 1)]
    simp only [Prod.mk.injEq, true_and]
    omega

/-- The session never performs more send attempts than its budget. -/
theorem send_and_receive_sent_le (recv : Nat → Option (List Nat)) :
    ∀ attempts sent, (send_and_receive recv attempts sent).2 ≤ sent + attempts := by
  intro attempts
  induction attempts with
  | zero => intro sent; simp [send_and_receive]
  | succ n ih =>
    intro sent
    simp only [send_and_receive]
    cases hr : recv sent with
    | none =>
      dsimp only
      have := ih (sent + 1)
      omega
    | some bytes =>
      dsimp only
      cases validate_and_strip bytes <;> dsimp only <;> omega

/-- Claim C5: a reply that does not begin with the 4-byte 0xFFFFFFFF
marker, or whose command token is unrecognized, makes validate_and_strip
yield the Protocol error — never the Decode error (and the function is
total, so it cannot panic) — and a session that receives such a reply on
its first attempt surfaces the Protocol error after a single send,
rather than retrying toward a timeout. -/
theorem c5_nonconformant_reply_is_protocol_error (bytes : List Nat)
    (h : ¬ (marker.isPrefixOf bytes ∧ bytesStr (tokenBytes bytes) ∈ recognizedTokens)) :
    validate_and_strip bytes = .error .protocol ∧
    validate_and_strip bytes ≠ .error .decode ∧
    (∀ (recv : Nat → Option (List Nat)) (attempts : Nat),
      recv 0 = some bytes →
      send_and_receive recv (attempts + 1) 0 = (.error .protocol, 1)) := by
  have hv : validate_and_strip bytes = .error .protocol := by
    unfold validate_and_strip
    by_cases h1 : marker.isPrefixOf bytes
    · have h2 : ¬ bytesStr (tokenBytes bytes) ∈ recognizedTokens := fun h2 => h ⟨h1, h2⟩
      simp [h1, h2]
    · simp [h1]
  refine ⟨hv, by simp [hv], fun recv attempts hr => ?_⟩
  simp [send_and_receive, hr, hv]

/-- Claim C5 witness: a three-byte garbage reply is a protocol error and
stops the session after one send. -/
theorem c5_witness :
    validate_and_strip [1, 2, 3] = .error .protocol ∧
    send_and_receive (fun _ => some [1, 2, 3]) 3 0 = (.error .protocol, 1) := by
  have h := c5_nonconformant_reply_is_protocol_error [1, 2, 3] (by decide)
  exact ⟨h.1, h.2.2 _ 2 rfl⟩

/-- Claim C6: when no conformant reply ever arrives the session performs
exactly its configured number of send attempts and then surfaces the
Timeout error; no run of the session ever sends more than the configured
attempt count, and the protocol default budget is 3 attempts total. -/
theorem c6_timeout_retry_budget (recv : Nat → Option (List Nat)) (attempts : Nat)
    (h : ∀ i, recv i = none) :
    send_and_receive recv attempts 0 = (.error .timeout, attempts) ∧
    (∀ recv' : Nat → Option (List Nat),
      (send_and_receive recv' attempts 0).2 ≤ attempts) ∧
    default_retry_count = 3 := by
  refine ⟨?_, fun recv' => ?_, rfl⟩
  · simpa using send_and_receive_all_timeouts recv h attempts 0
  · simpa using send_and_receive_sent_le recv' attempts 0

/-- Claim C6 witness: a silent socket under the default budget gives
exactly 3 sends and a timeout error. -/
theorem c6_witness :
    send_and_receive (fun _ => none) default_retry_count 0 = (.error .timeout, 3) ∧
    (send_and_receive (fun _ => some [9, 9]) default_retry_count 0).2 ≤ 3 := by
  have h := c6_timeout_retry_budget (fun _ => none) default_retry_count (fun _ => rfl)
  exact ⟨h.1, h.2.1 _⟩

/-- A list is a Boolean prefix of itself followed by anything. -/
theorem isPrefixOf_append_self (l₁ l₂ : List Nat) : l₁.isPrefixOf (l₁ ++ l₂) = true := by
  induction l₁ with
  | nil => simp [List.isPrefixOf]
  | cons a t ih => simp [List.isPrefixOf, ih]

/-- Byte/string views are mutually inverse on strings. -/
theorem bytesStr_strBytes (s : String) : bytesStr (strBytes s) = s := by
  apply String.ext
  simp only [bytesStr, strBytes, String.toList, List.map_map]
  have hcomp : Char.ofNat ∘ Char.toNat = id := funext fun c => Char.ofNat_toNat c
  rw [hcomp, List.map_id]

/-- Claim C7: framing symmetry of the packet codec — validating a
conformant synthetic reply built by encode(cmd) round-trips to the
original command token (with an empty remaining payload), for every
recognized command token free of delimiter bytes. -/
theorem c7_encode_validate_roundtrip (cmd : String)
    (hrec : cmd ∈ recognizedTokens)
    (htok : ∀ b ∈ strBytes cmd, isTokenByte b = true) :
    validate_and_strip (encode cmd none) = .ok (cmd, []) := by
  have hb : encode cmd none = marker ++ (strBytes cmd ++ [10]) := by
    simp [encode]
  have hdrop : (encode cmd none).drop 4 = strBytes cmd ++ [10] := by
    rw [hb]; rfl
  have htake : tokenBytes (encode cmd none) = strBytes cmd := by
    rw [tokenBytes, hdrop, List.takeWhile_append_of_pos htok]
    simp [isTokenByte]
  have hpre : marker.isPrefixOf (encode cmd none) = true := by
    rw [hb]
    exact isPrefixOf_append_self marker (strBytes cmd ++ [10])
  simp only [validate_and_strip, hpre, if_true, htake, bytesStr_strBytes]
  rw [if_pos hrec, hdrop, List.drop_left]
  rfl

/-- Claim C7 witness: the round trip at the concrete recognized token
"statusResponse". -/
theorem c7_witness :
    validate_and_strip (encode "statusResponse" none) = .ok ("statusResponse", []) :=
  c7_encode_validate_roundtrip "statusResponse" (by decide) (by decide)

/-- A successful batch player decode consumes every line, each line
parsing to exactly one record. -/
theorem decodePlayers_ok (ls : List String) (ps : List Player)
    (h : decodePlayers ls = .ok ps) :
    ps.length = ls.length ∧ ∀ l ∈ ls, ∃ p, parse_player_line l = .ok p := by
  induction ls generalizing ps with
  | nil =>
    simp only [decodePlayers] at h
    injection h with h
    subst h
    simp
  | cons l rest ih =>
    simp only [decodePlayers] at h
    cases hp : parse_player_line l with
    | error e => rw [hp] at h; simp at h
    | ok p =>
      rw [hp] at h
      cases hr : decodePlayers rest with
      | error e => rw [hr] at h; simp at h
      | ok ps' =>
        rw [hr] at h
        injection h with h
        subst h
        obtain ⟨hlen, hall⟩ := ih ps' hr
        refine ⟨by simp [hlen], fun l' hl' => ?_⟩
        rcases List.mem_cons.mp hl' with h1 | h2
        · exact ⟨p, h1 ▸ hp⟩
        · exact hall l' h2

/-- Claim C4: no partial success escapes the decoder — a successful
decode carries the full parse of the payload: its info mapping is the
parse of the whole info line, every player line of the payload parsed
successfully and contributed exactly one record, and any declared player
count agrees with the record count. -/
theorem c4_success_is_fully_decoded (payload : String) (resp : Response)
    (h : decode payload = .ok resp) :
    resp.info = infoOf payload ∧
    resp.players.length = (playerLines payload).length ∧
    (∀ l ∈ playerLines payload, ∃ p, parse_player_line l = .ok p) ∧
    (∀ n, declared_player_count resp.info = some n → resp.players.length = n) := by
  unfold decode at h
  cases hs : splitLines payload with
  | nil => rw [hs] at h; simp at h
  | cons infoLine t =>
    rw [hs] at h
    dsimp only at h
    cases hd : decodePlayers (playerLines payload) with
    | error e => rw [hd] at h; simp at h
    | ok players =>
      rw [hd] at h
      dsimp only at h
      cases hc : declared_player_count (parseInfo infoLine) with
      | none =>
        rw [hc] at h
        dsimp only at h
        injection h with h
        subst h
        refine ⟨by simp [infoOf, hs], (decodePlayers_ok _ _ hd).1,
          (decodePlayers_ok _ _ hd).2, fun n hn => ?_⟩
        have hcontra : declared_player_count (parseInfo infoLine) = some n := hn
        rw [hc] at hcontra
        simp at hcontra
      | some n =>
        rw [hc] at h
        dsimp only at h
        by_cases hlen : players.length = n
        · rw [if_pos hlen] at h
          injection h with h
          subst h
          refine ⟨by simp [infoOf, hs], (decodePlayers_ok _ _ hd).1,
            (decodePlayers_ok _ _ hd).2, fun n' hn' => ?_⟩
          have heq : declared_player_count (parseInfo infoLine) = some n' := hn'
          rw [hc] at heq
          injection heq with heq
          rw [← heq]
          exact hlen
        · rw [if_neg hlen] at h
          simp at h

/-- Claim C4 witness: the fully decoded response of a concrete payload
has exactly one record per player line. -/
theorem c4_witness :
    ({ info := [("players", "1")],
       players := [{ score := 5, ping := 10, name := "alpha", extras := [] }] } :
      Response).players.length =
      (playerLines "\\players\\1\\\n5 10 \"alpha\"").length :=
  (c4_success_is_fully_decoded "\\players\\1\\\n5 10 \"alpha\""
    { info := [("players", "1")],
      players := [{ score := 5, ping := 10, name := "alpha", extras := [] }] }
    rfl).2.1

/-- Claim C8: fragment reassembly is arrival-order independent — any two
arrival orders of the same fragments with pairwise-distinct sequence
indices reassemble to the identical payload. -/
theorem c8_reassembly_order_invariant (l₁ l₂ : List Fragment)
    (hperm : l₁.Perm l₂) (hnodup : (l₁.map Fragment.index).Nodup) :
    reassemble l₁ = reassemble l₂ := by
  have hp₁ : (l₁.insertionSort byIndex).Perm l₁ := List.perm_insertionSort byIndex l₁
  have hp₂ : (l₂.insertionSort byIndex).Perm l₂ := List.perm_insertionSort byIndex l₂
  have hp : (l₁.insertionSort byIndex).Perm (l₂.insertionSort byIndex) :=
    (hp₁.trans hperm).trans hp₂.symm
  have hnodup₂ : (l₂.map Fragment.index).Nodup :=
    ((hperm.map Fragment.index).nodup_iff).mp hnodup
  have hne : l₁.Pairwise (fun a b => a.index ≠ b.index) := List.pairwise_map.mp hnodup
  have hne' : l₂.Pairwise (fun a b => a.index ≠ b.index) := List.pairwise_map.mp hnodup₂
  have hne₁ : (l₁.insertionSort byIndex).Pairwise (fun a b => a.index ≠ b.index) :=
    (List.Perm.pairwise_iff (fun h => Ne.symm h) hp₁).mpr hne
  have hne₂ : (l₂.insertionSort byIndex).Pairwise (fun a b => a.index ≠ b.index) :=
    (List.Perm.pairwise_iff (fun h => Ne.symm h) hp₂).mpr hne'
  have hst₁ : (l₁.insertionSort byIndex).Sorted byIndex :=
    List.sorted_insertionSort byIndex l₁
  have hst₂ : (l₂.insertionSort byIndex).Sorted byIndex :=
    List.sorted_insertionSort byIndex l₂
  have hlt₁ : (l₁.insertionSort byIndex).Pairwise byIndexLt :=
    List.Pairwise.imp₂ (fun _ _ hle hne => Nat.lt_of_le_of_ne hle hne) hst₁ hne₁
  have hlt₂ : (l₂.insertionSort byIndex).Pairwise byIndexLt :=
    List.Pairwise.imp₂ (fun _ _ hle hne => Nat.lt_of_le_of_ne hle hne) hst₂ hne₂
  have heq : l₁.insertionSort byIndex = l₂.insertionSort byIndex :=
    List.eq_of_perm_of_sorted hp hlt₁ hlt₂
  unfold reassemble
  rw [heq]

/-- Claim C8 witness: two fragments delivered in swapped order
reassemble to the same payload as in-order delivery. -/
theorem c8_witness :
    reassemble [{ index := 1, data := [3, 4] }, { index := 0, data := [1, 2] }] =
      reassemble [{ index := 0, data := [1, 2] }, { index := 1, data := [3, 4] }] :=
  c8_reassembly_order_invariant _ _ (by decide) (by decide)

end Gamedig
